import Mathlib

/-!
Shallow embedding of the DecoratorApplication repository's core:
the price-computation decorator chain and the two product-filter decorator
chains (the TypeScript services variant in src/services/ProductFilters.ts,
namespace Svc below, and the database-backed JavaScript variant, namespace
DB below), their factories, and the browser-side discount computation from
public/app.js (namespace App below).

JavaScript numbers are modelled as exact rationals, arrays as lists, and
optional/nullable values as Option.  JS string helpers that the filters use
(toLowerCase, trim, includes) are modelled on character lists.
-/

namespace DecoratorApp

/-- Product model (src/models/Product.ts): the fields the filter and price
chains consult.  price is a rational (JS number), stock_quantity an integer,
description a plain string (the TS model defaults it to the empty string). -/
structure Product where
  name : String
  category : String
  price : ℚ
  description : String
  stock_quantity : Int
deriving Repr, DecidableEq

/-- Models JS String.prototype.toLowerCase, characterwise. -/
def strToLower (s : String) : String := ⟨s.data.map Char.toLower⟩

/-- JS whitespace test used by trim (space, tab, newline, carriage return). -/
def jsWhitespace (c : Char) : Bool := c = ' ' || c = '\t' || c = '\n' || c = '\r'

/-- Models JS String.prototype.trim: strip whitespace from both ends. -/
def strTrim (s : String) : String :=
  ⟨((s.data.dropWhile jsWhitespace).reverse.dropWhile jsWhitespace).reverse⟩

/-- sub occurs as a contiguous run inside l. -/
def listHasRun (sub : List Char) : List Char → Bool
  | [] => sub.isEmpty
  | c :: cs => sub.isPrefixOf (c :: cs) || listHasRun sub cs

/-- Models JS String.prototype.includes: sub is a contiguous substring of s. -/
def strIncludes (s sub : String) : Bool := listHasRun sub.data s.data

/-- JS truthiness of a nullable string: null and the empty string are falsy. -/
def truthyStr : Option String → Bool
  | none => false
  | some s => !s.isEmpty

/-- JS truthiness of searchTerm?.trim(): present with a nonempty trim. -/
def truthyTrim : Option String → Bool
  | none => false
  | some s => !(strTrim s).isEmpty

/-- Number.MAX_VALUE, the default maxPrice of the services PriceRangeFilter. -/
def numberMaxValue : ℚ := 2 ^ 1024 - 2 ^ 971

/-- Decimal rendering of a rational with two digits, modelling JS
Number.prototype.toFixed(2) (round to nearest hundredth). -/
def toFixed2 (q : ℚ) : String :=
  let cents : Int := round (q * 100)
  let sign := if cents < 0 then "-" else ""
  let n := cents.natAbs
  let fracPart := n % 100
  sign ++ toString (n / 100) ++ "." ++ (if fracPart < 10 then "0" else "") ++ toString fracPart

/-- The fixed description of BaseFilter in both variants:
'Filtro base (sem filtragem)'. -/
def baseSentinel : String := "Filtro base (sem filtragem)"

/-! ## The TypeScript services variant (src/services/ProductFilters.ts) -/

namespace Svc

/-- Price-calculator chains of src/services/ProductFilters.ts: BasicPrice is
the leaf; each decorator wraps exactly one inner calculator. -/
inductive PriceCalc where
  | basicPrice
  | categoryPercentOff (inner : PriceCalc) (category : String) (percent : ℚ)
  | couponPercentOff (inner : PriceCalc) (percent : ℚ)
  | shippingDecorator (inner : PriceCalc)

/-- Category-keyed shipping surcharge of ShippingDecorator.total. -/
def shippingCost (category : String) : ℚ :=
  if category = "eletronicos" then 25
  else if category = "livros" then 10
  else if category = "alimentos" then 15
  else 0

/-- total(p), following each class's total method: BasicPrice returns
p.price; CategoryPercentOff multiplies the inner result by (1 - percent)
when the category matches; CouponPercentOff multiplies unconditionally;
ShippingDecorator adds the category surcharge. -/
def PriceCalc.total : PriceCalc → Product → ℚ
  | .basicPrice, p => p.price
  | .categoryPercentOff inner category percent, p =>
      let basePrice := inner.total p
      if p.category = category then basePrice * (1 - percent) else basePrice
  | .couponPercentOff inner percent, p =>
      let basePrice := inner.total p
      basePrice * (1 - percent)
  | .shippingDecorator inner, p => inner.total p + shippingCost p.category

/-- Filter chains of src/services/ProductFilters.ts.  Stored fields mirror
the class fields after construction: CategoryFilter holds a nullable
category, SearchFilter holds the already-lowercased term (see mkSearchFilter),
PriceRangeFilter holds both bounds (constructor defaults 0 and
Number.MAX_VALUE), DiscountFilter holds the flag and an optional pricing
function. -/
inductive Filter where
  | baseFilter
  | categoryFilter (inner : Filter) (category : Option String)
  | searchFilter (inner : Filter) (searchTerm : String)
  | priceRangeFilter (inner : Filter) (minPrice maxPrice : ℚ)
  | discountFilter (inner : Filter) (onlyWithDiscount : Bool)
      (priceCalculatorFn : Option (Product → ℚ))

/-- The SearchFilter constructor lowercases the term before storing it. -/
def mkSearchFilter (f : Filter) (searchTerm : String) : Filter :=
  .searchFilter f (strToLower searchTerm)

/-- PriceRangeFilter built with both constructor defaults:
minPrice = 0, maxPrice = Number.MAX_VALUE. -/
def mkPriceRangeDefault (f : Filter) : Filter :=
  .priceRangeFilter f 0 numberMaxValue

/-- filter(products): BaseFilter returns a (shallow copy of the) input;
each decorator first runs the wrapped filter, then applies its own
applyFilter to that result, exactly as FilterDecorator.filter does.
The applyFilter bodies are inlined per constructor, following each class. -/
def Filter.filter : Filter → List Product → List Product
  | .baseFilter, products => products
  | .categoryFilter inner category, products =>
      let filteredByWrapped := inner.filter products
      match category with
      | none => filteredByWrapped
      | some c =>
          if c = "" then filteredByWrapped
          else filteredByWrapped.filter (fun p => p.category == c)
  | .searchFilter inner searchTerm, products =>
      let filteredByWrapped := inner.filter products
      if strTrim searchTerm = "" then filteredByWrapped
      else filteredByWrapped.filter (fun p =>
        strIncludes (strToLower p.name) searchTerm ||
        strIncludes (strToLower p.description) searchTerm)
  | .priceRangeFilter inner minPrice maxPrice, products =>
      let filteredByWrapped := inner.filter products
      filteredByWrapped.filter (fun p =>
        decide (minPrice ≤ p.price ∧ p.price ≤ maxPrice))
  | .discountFilter inner onlyWithDiscount priceCalculatorFn, products =>
      let filteredByWrapped := inner.filter products
      match onlyWithDiscount, priceCalculatorFn with
      | true, some fn => filteredByWrapped.filter (fun p => decide (fn p < p.price))
      | _, _ => filteredByWrapped

/-- getOwnDescription of each decorator (the base case is unused: BaseFilter
overrides getDescription directly). -/
def Filter.getOwnDescription : Filter → String
  | .baseFilter => baseSentinel
  | .categoryFilter _ category =>
      match category with
      | some c => if c = "" then "Categoria: Todas" else "Categoria: " ++ c
      | none => "Categoria: Todas"
  | .searchFilter _ searchTerm =>
      if searchTerm = "" then "Busca: Vazia"
      else "Busca: \"" ++ searchTerm ++ "\""
  | .priceRangeFilter _ minPrice maxPrice =>
      if minPrice = 0 ∧ maxPrice = numberMaxValue then "Preço: Todos"
      else "Preço: R$ " ++ toFixed2 minPrice ++ " - R$ " ++ toFixed2 maxPrice
  | .discountFilter _ onlyWithDiscount _ =>
      if onlyWithDiscount then "Apenas com desconto" else "Todos os produtos"

/-- getDescription: BaseFilter returns the fixed sentinel; every decorator
returns the wrapped filter's description joined with its own by " + ",
unconditionally (FilterDecorator.getDescription). -/
def Filter.getDescription : Filter → String
  | .baseFilter => baseSentinel
  | .categoryFilter inner category =>
      inner.getDescription ++ " + " ++ (Filter.categoryFilter inner category).getOwnDescription
  | .searchFilter inner searchTerm =>
      inner.getDescription ++ " + " ++ (Filter.searchFilter inner searchTerm).getOwnDescription
  | .priceRangeFilter inner minPrice maxPrice =>
      inner.getDescription ++ " + " ++
        (Filter.priceRangeFilter inner minPrice maxPrice).getOwnDescription
  | .discountFilter inner onlyWithDiscount fn =>
      inner.getDescription ++ " + " ++
        (Filter.discountFilter inner onlyWithDiscount fn).getOwnDescription

/-- FilterFactory.createCompleteFilter of the services variant: wraps a
BaseFilter with category, search, price-range and discount stages, each
guarded exactly as in the source.  Note the price-range stage requires BOTH
bounds to be present, and the final stage is the discount filter. -/
def createCompleteFilter (category : Option String) (searchTerm : String)
    (minPrice maxPrice : Option ℚ) (onlyWithDiscount : Bool)
    (priceCalculatorFn : Option (Product → ℚ)) : Filter :=
  let f0 : Filter := .baseFilter
  let f1 := if truthyStr category then Filter.categoryFilter f0 category else f0
  let f2 := if (strTrim searchTerm).isEmpty then f1 else mkSearchFilter f1 searchTerm
  let f3 := match minPrice, maxPrice with
    | some mn, some mx => Filter.priceRangeFilter f2 mn mx
    | _, _ => f2
  match onlyWithDiscount, priceCalculatorFn with
  | true, some _ => Filter.discountFilter f3 onlyWithDiscount priceCalculatorFn
  | _, _ => f3

end Svc

/-! ## The database-backed JavaScript variant (ProductFilters of part_004) -/

namespace DB

/-- Filter chains of the database variant: CategoryFilter stores a required
category string (compared case-insensitively), PriceRangeFilter stores
genuinely optional bounds, and the stock stage replaces the discount stage. -/
inductive Filter where
  | baseFilter
  | categoryFilter (inner : Filter) (category : String)
  | searchFilter (inner : Filter) (searchTerm : String)
  | priceRangeFilter (inner : Filter) (minPrice maxPrice : Option ℚ)
  | stockFilter (inner : Filter) (inStockOnly : Bool)
deriving Repr, DecidableEq

/-- filter(products) of the database variant (the async wrapper is modelled
as a pure function; parseFloat/parseInt on row fields are identities here
because the Product model already holds numbers). -/
def Filter.filter : Filter → List Product → List Product
  | .baseFilter, products => products
  | .categoryFilter inner category, products =>
      let baseFiltered := inner.filter products
      baseFiltered.filter (fun p => strToLower p.category == strToLower category)
  | .searchFilter inner searchTerm, products =>
      let baseFiltered := inner.filter products
      let term := strToLower searchTerm
      baseFiltered.filter (fun p =>
        strIncludes (strToLower p.name) term ||
        (!p.description.isEmpty && strIncludes (strToLower p.description) term))
  | .priceRangeFilter inner minPrice maxPrice, products =>
      let baseFiltered := inner.filter products
      baseFiltered.filter (fun p =>
        (match minPrice with
         | some m => !decide (p.price < m)
         | none => true) &&
        (match maxPrice with
         | some m => !decide (m < p.price)
         | none => true))
  | .stockFilter inner inStockOnly, products =>
      let baseFiltered := inner.filter products
      if !inStockOnly then baseFiltered
      else baseFiltered.filter (fun p => decide (0 < p.stock_quantity))

/-- The own description fragment of each decorator of the database variant
(readable from each getDescription body). -/
def Filter.ownFragment : Filter → String
  | .baseFilter => baseSentinel
  | .categoryFilter _ category => "Categoria: " ++ category
  | .searchFilter _ searchTerm => "Busca: \"" ++ searchTerm ++ "\""
  | .priceRangeFilter _ minPrice maxPrice =>
      "Preço: " ++
      (match minPrice, maxPrice with
       | some mn, some mx => "R$ " ++ toFixed2 mn ++ " - R$ " ++ toFixed2 mx
       | some mn, none => ">= R$ " ++ toFixed2 mn
       | none, some mx => "<= R$ " ++ toFixed2 mx
       | none, none => "")
  | .stockFilter _ inStockOnly =>
      if inStockOnly then "Apenas em estoque" else "Incluir sem estoque"

/-- getDescription of the database variant: every decorator compares the
wrapped description against the BaseFilter sentinel and, when it matches,
returns only its own fragment; otherwise it joins with " + ". -/
def Filter.getDescription : Filter → String
  | .baseFilter => baseSentinel
  | .categoryFilter inner category =>
      let baseDesc := inner.getDescription
      let own := (Filter.categoryFilter inner category).ownFragment
      if baseDesc = baseSentinel then own else baseDesc ++ " + " ++ own
  | .searchFilter inner searchTerm =>
      let baseDesc := inner.getDescription
      let own := (Filter.searchFilter inner searchTerm).ownFragment
      if baseDesc = baseSentinel then own else baseDesc ++ " + " ++ own
  | .priceRangeFilter inner minPrice maxPrice =>
      let baseDesc := inner.getDescription
      let own := (Filter.priceRangeFilter inner minPrice maxPrice).ownFragment
      if baseDesc = baseSentinel then own else baseDesc ++ " + " ++ own
  | .stockFilter inner inStockOnly =>
      let baseDesc := inner.getDescription
      let own := (Filter.stockFilter inner inStockOnly).ownFragment
      if baseDesc = baseSentinel then own else baseDesc ++ " + " ++ own

/-- FilterFactory.createCompleteFilter of the database variant: the
price-range stage is included when at least one bound is present, and the
final stage is the stock filter. -/
def createCompleteFilter (category searchTerm : Option String)
    (minPrice maxPrice : Option ℚ) (inStockOnly : Bool) : Filter :=
  let f0 : Filter := .baseFilter
  let f1 := if truthyStr category then Filter.categoryFilter f0 (category.getD "") else f0
  let f2 := if truthyTrim searchTerm then Filter.searchFilter f1 (searchTerm.getD "") else f1
  let f3 := if minPrice.isSome || maxPrice.isSome
    then Filter.priceRangeFilter f2 minPrice maxPrice else f2
  if inStockOnly then Filter.stockFilter f3 true else f3

end DB

/-! ## Browser-side discount computation (public/app.js) -/

namespace App

/-- Kinds of active discounts the UI keeps: category discounts and coupons. -/
inductive DiscountType where
  | categoria
  | cupom
deriving Repr, DecidableEq

/-- One entry of this.activeDiscounts in public/app.js. -/
structure Discount where
  dtype : DiscountType
  category : String
  percentage : ℚ
deriving Repr, DecidableEq

/-- calculateFinalPrice of public/app.js: find the first active category
discount matching the product and the first active coupon, SUM the two
percentages, cap the sum at 100, and apply the capped sum to the base
price. -/
def calculateFinalPrice (activeDiscounts : List Discount) (product : Product) : ℚ :=
  let categoryDiscount := activeDiscounts.find? (fun d =>
    d.dtype == DiscountType.categoria && d.category == product.category)
  let couponDiscount := activeDiscounts.find? (fun d => d.dtype == DiscountType.cupom)
  let afterCategory : ℚ := match categoryDiscount with
    | some d => d.percentage
    | none => 0
  let summed : ℚ := match couponDiscount with
    | some d => afterCategory + d.percentage
    | none => afterCategory
  let totalDiscountPercentage := min summed 100
  product.price * (1 - totalDiscountPercentage / 100)

end App

/-! ## Observation helpers used by the theorems -/

/-- The decorator stages a factory may install. -/
inductive Stage where
  | category
  | search
  | price
  | stock
  | discount
deriving Repr, DecidableEq

/-- Decorator stages of a services chain, innermost first. -/
def Svc.Filter.stages : Svc.Filter → List Stage
  | .baseFilter => []
  | .categoryFilter inner _ => inner.stages ++ [Stage.category]
  | .searchFilter inner _ => inner.stages ++ [Stage.search]
  | .priceRangeFilter inner _ _ => inner.stages ++ [Stage.price]
  | .discountFilter inner _ _ => inner.stages ++ [Stage.discount]

/-- Decorator stages of a database-variant chain, innermost first. -/
def DB.Filter.stages : DB.Filter → List Stage
  | .baseFilter => []
  | .categoryFilter inner _ => inner.stages ++ [Stage.category]
  | .searchFilter inner _ => inner.stages ++ [Stage.search]
  | .priceRangeFilter inner _ _ => inner.stages ++ [Stage.price]
  | .stockFilter inner _ => inner.stages ++ [Stage.stock]

/-- Own description fragments of a database-variant chain, innermost first
(the BaseFilter sentinel contributes nothing). -/
def DB.Filter.fragments : DB.Filter → List String
  | .baseFilter => []
  | .categoryFilter inner category =>
      inner.fragments ++ [(Filter.categoryFilter inner category).ownFragment]
  | .searchFilter inner searchTerm =>
      inner.fragments ++ [(Filter.searchFilter inner searchTerm).ownFragment]
  | .priceRangeFilter inner minPrice maxPrice =>
      inner.fragments ++ [(Filter.priceRangeFilter inner minPrice maxPrice).ownFragment]
  | .stockFilter inner inStockOnly =>
      inner.fragments ++ [(Filter.stockFilter inner inStockOnly).ownFragment]

/-- Join a list of description fragments with " + ". -/
def joinPlus : List String → String
  | [] => ""
  | [s] => s
  | s :: rest => s ++ " + " ++ joinPlus rest

/-- The category predicate of the services CategoryFilter, as a standalone
function: a falsy (null or empty) category keeps everything. -/
def Svc.categoryPred (category : Option String) (p : Product) : Bool :=
  match category with
  | none => true
  | some c => if c = "" then true else p.category == c

/-- The search predicate of the services SearchFilter over its stored
(lowercased) term: a whitespace-only term keeps everything. -/
def Svc.searchPred (storedTerm : String) (p : Product) : Bool :=
  if strTrim storedTerm = "" then true
  else strIncludes (strToLower p.name) storedTerm ||
       strIncludes (strToLower p.description) storedTerm

/-! ### Heap model for the mutation claim

Arrays live in a heap (a list of array contents addressed by index); the
filter chain is re-run against this heap.  BaseFilter's spread copy and every
Array.prototype.filter call allocate a fresh array; the early-return branches
hand back the inner result's reference unchanged.  Nothing ever writes to an
existing cell, which the extension theorem below makes precise. -/

/-- A heap of JS arrays of products, addressed by allocation index. -/
abbrev Heap := List (List Product)

/-- Allocate a fresh array holding the given contents. -/
def Heap.alloc (h : Heap) (contents : List Product) : Heap × Nat :=
  (h ++ [contents], h.length)

/-- Read the array at a reference (a dangling reference reads as empty). -/
def Heap.readArr (h : Heap) (r : Nat) : List Product := h.getD r []

/-- The services filter chain run against the heap: the input is an array
reference, the result a reference to the (possibly freshly allocated)
output array. -/
def Svc.Filter.filterH : Svc.Filter → Heap → Nat → Heap × Nat
  | .baseFilter, h, r => h.alloc (h.readArr r)
  | .categoryFilter inner category, h, r =>
      let step := inner.filterH h r
      match category with
      | none => step
      | some c =>
          if c = "" then step
          else step.1.alloc ((step.1.readArr step.2).filter (fun p => p.category == c))
  | .searchFilter inner searchTerm, h, r =>
      let step := inner.filterH h r
      if strTrim searchTerm = "" then step
      else step.1.alloc ((step.1.readArr step.2).filter (fun p =>
        strIncludes (strToLower p.name) searchTerm ||
        strIncludes (strToLower p.description) searchTerm))
  | .priceRangeFilter inner minPrice maxPrice, h, r =>
      let step := inner.filterH h r
      step.1.alloc ((step.1.readArr step.2).filter (fun p =>
        decide (minPrice ≤ p.price ∧ p.price ≤ maxPrice)))
  | .discountFilter inner onlyWithDiscount priceCalculatorFn, h, r =>
      let step := inner.filterH h r
      match onlyWithDiscount, priceCalculatorFn with
      | true, some fn =>
          step.1.alloc ((step.1.readArr step.2).filter (fun p => decide (fn p < p.price)))
      | _, _ => step

/-- Outcome relation of running a filter against a heap: the old heap is a
prefix of the new one (no existing array cell was written, so the input
array still holds the same elements in the same order), the result
reference is valid and reads as v, and every pre-existing reference still
reads exactly what it read before. -/
structure HeapExtends (h : Heap) (res : Heap × Nat) (v : List Product) : Prop where
  pre : h <+: res.1
  lt : res.2 < res.1.length
  readNew : res.1.readArr res.2 = v
  readOld : ∀ i, i < h.length → res.1.readArr i = h.readArr i

/-! ### Concrete values used by witnesses and counterexamples -/

/-- A concrete electronics product with price 100. -/
def tvProduct : Product :=
  { name := "TV", category := "eletronicos", price := 100, description := "",
    stock_quantity := 5 }

/-- A concrete product with a negative price (the core passes malformed
prices through by design). -/
def negProduct : Product :=
  { name := "refund", category := "livros", price := -1, description := "",
    stock_quantity := 1 }

/-! ## Theorems -/

/-- C1: for every product P with P.category = K and percents p1, p2 in [0,1],
CouponPercentOff(CategoryPercentOff(BasicPrice(), K, p1), p2).total(P) equals
P.price * (1 - p1) * (1 - p2): each decorator applies its rule to the inner
calculator's result, so discounts compound multiplicatively in chain order. -/
theorem priceChain_compounds_multiplicatively
    (p : Product) (K : String) (p1 p2 : ℚ)
    (hK : p.category = K) (h1 : 0 ≤ p1) (h2 : p1 ≤ 1) (h3 : 0 ≤ p2) (h4 : p2 ≤ 1) :
    (Svc.PriceCalc.couponPercentOff
        (Svc.PriceCalc.categoryPercentOff Svc.PriceCalc.basicPrice K p1) p2).total p
      = p.price * (1 - p1) * (1 - p2) := by
  simp [Svc.PriceCalc.total, hK]

/-- Witness for C1 at a concrete electronics product with price 100 and
percents 1/10 and 1/20. -/
theorem priceChain_compounds_multiplicatively_witness :
    tvProduct.category = "eletronicos" ∧ 0 ≤ (1/10 : ℚ) ∧ (1/10 : ℚ) ≤ 1 ∧
    0 ≤ (1/20 : ℚ) ∧ (1/20 : ℚ) ≤ 1 ∧
    (Svc.PriceCalc.couponPercentOff
        (Svc.PriceCalc.categoryPercentOff Svc.PriceCalc.basicPrice "eletronicos" (1/10))
        (1/20)).total tvProduct
      = 100 * (1 - 1/10) * (1 - 1/20) := by
  refine ⟨rfl, by norm_num, by norm_num, by norm_num, by norm_num, ?_⟩
  simpa [tvProduct] using
    priceChain_compounds_multiplicatively tvProduct "eletronicos" (1/10) (1/20)
      rfl (by norm_num) (by norm_num) (by norm_num) (by norm_num)

/-- C3 counterexample: the constructors validate nothing.  A coupon decorator
built with percent 2 (far outside [0,1]) is constructed fine and total()
silently returns the nonsensical price -100 on a 100-priced product, and a
PriceRangeFilter built with min 10 > max 5 is constructed fine and filter()
silently empties the list. -/
theorem no_construction_validation_cex :
    (Svc.PriceCalc.couponPercentOff Svc.PriceCalc.basicPrice 2).total tvProduct = -100
    ∧ Svc.Filter.filter (Svc.Filter.priceRangeFilter Svc.Filter.baseFilter 10 5) [tvProduct]
        = [] := by
  constructor
  · norm_num [Svc.PriceCalc.total, tvProduct]
  · decide

/-- C3 (amended): no constructor validates its parameters.  A coupon percent
is stored unchecked and total() applies the formula unclamped for ANY
percent, and a PriceRangeFilter accepts min > max, in which case filter()
returns the empty list; invalid parameters surface only as nonsensical
results of total()/filter(), never as construction-time errors. -/
theorem construction_unvalidated_semantics :
    (∀ (percent : ℚ) (p : Product),
        (Svc.PriceCalc.couponPercentOff Svc.PriceCalc.basicPrice percent).total p
          = p.price * (1 - percent))
    ∧ ∀ (mn mx : ℚ) (l : List Product), mx < mn →
        Svc.Filter.filter (Svc.Filter.priceRangeFilter Svc.Filter.baseFilter mn mx) l = [] := by
  constructor
  · intro percent p
    simp [Svc.PriceCalc.total]
  · intro mn mx l h
    simp only [Svc.Filter.filter]
    rw [List.filter_eq_nil_iff]
    intro p _
    simp only [decide_eq_true_eq]
    intro hc
    exact absurd (hc.1.trans hc.2) (not_le.mpr h)

/-- Witness for C3 (amended) at percent 2 and bounds min 10 > max 5. -/
theorem construction_unvalidated_semantics_witness :
    (Svc.PriceCalc.couponPercentOff Svc.PriceCalc.basicPrice 2).total tvProduct
        = tvProduct.price * (1 - 2)
    ∧ (5:ℚ) < 10
    ∧ Svc.Filter.filter (Svc.Filter.priceRangeFilter Svc.Filter.baseFilter 10 5) [tvProduct]
        = [] := by
  exact ⟨construction_unvalidated_semantics.1 2 tvProduct, by norm_num,
         construction_unvalidated_semantics.2 10 5 [tvProduct] (by norm_num)⟩

/-- C7: DiscountFilter with a pricing function and onlyWithDiscount enabled
keeps exactly those products of the inner chain's result whose calculated
final price is strictly below their base price; with no pricing function it
is a no-op pass-through of the inner chain's result (and, being a total
function, never fails). -/
theorem discountFilter_passthrough_and_selection (inner : Svc.Filter) (l : List Product) :
    (∀ flag : Bool,
        Svc.Filter.filter (Svc.Filter.discountFilter inner flag none) l
          = Svc.Filter.filter inner l)
    ∧ ∀ fn : Product → ℚ,
        Svc.Filter.filter (Svc.Filter.discountFilter inner true (some fn)) l
          = (Svc.Filter.filter inner l).filter (fun p => decide (fn p < p.price)) := by
  constructor
  · intro flag
    cases flag <;> simp [Svc.Filter.filter]
  · intro fn
    simp [Svc.Filter.filter]

/-- C9: every services filter chain returns a sublist (subsequence) of its
input: each surviving product is an element of the input and the input's
relative order is preserved; filters never reorder, duplicate or introduce
products. -/
theorem filter_chain_sublist (c : Svc.Filter) (l : List Product) :
    (Svc.Filter.filter c l).Sublist l := by
  induction c with
  | baseFilter => simp [Svc.Filter.filter]
  | categoryFilter inner category ih =>
      cases category with
      | none => simpa [Svc.Filter.filter] using ih
      | some c =>
          by_cases hc : c = ""
          · simpa [Svc.Filter.filter, hc] using ih
          · simp only [Svc.Filter.filter, hc, if_false]
            exact (List.filter_sublist _).trans ih
  | searchFilter inner searchTerm ih =>
      by_cases hs : strTrim searchTerm = ""
      · simpa [Svc.Filter.filter, hs] using ih
      · simp only [Svc.Filter.filter, hs, if_false]
        exact (List.filter_sublist _).trans ih
  | priceRangeFilter inner minPrice maxPrice ih =>
      simp only [Svc.Filter.filter]
      exact (List.filter_sublist _).trans ih
  | discountFilter inner onlyWithDiscount priceCalculatorFn ih =>
      cases onlyWithDiscount with
      | false => simpa [Svc.Filter.filter] using ih
      | true =>
          cases priceCalculatorFn with
          | none => simpa [Svc.Filter.filter] using ih
          | some fn =>
              simp only [Svc.Filter.filter]
              exact (List.filter_sublist _).trans ih

/-- The services CategoryFilter stage is List.filter by the category
predicate (a falsy category filters nothing). -/
theorem Svc.categoryFilter_eq_filter (inner : Svc.Filter) (category : Option String)
    (l : List Product) :
    Svc.Filter.filter (Svc.Filter.categoryFilter inner category) l
      = (Svc.Filter.filter inner l).filter (Svc.categoryPred category) := by
  cases category with
  | none =>
      simp only [Svc.Filter.filter]
      exact (List.filter_true _).symm
  | some c =>
      by_cases hc : c = ""
      · subst hc
        simp only [Svc.Filter.filter, if_pos rfl]
        exact (List.filter_true _).symm
      · simp only [Svc.Filter.filter, hc, if_false]
        exact List.filter_congr (fun x _ => by simp [Svc.categoryPred, hc])

/-- The services SearchFilter stage is List.filter by the search predicate
over the stored term (a whitespace-only term filters nothing). -/
theorem Svc.searchFilter_eq_filter (inner : Svc.Filter) (storedTerm : String)
    (l : List Product) :
    Svc.Filter.filter (Svc.Filter.searchFilter inner storedTerm) l
      = (Svc.Filter.filter inner l).filter (Svc.searchPred storedTerm) := by
  by_cases hs : strTrim storedTerm = ""
  · rw [show Svc.searchPred storedTerm = fun _ => true from
          funext fun p => by simp [Svc.searchPred, hs],
        List.filter_true]
    simp [Svc.Filter.filter, hs]
  · simp only [Svc.Filter.filter, hs, if_false]
    exact List.filter_congr (fun x _ => by simp [Svc.searchPred, hs])

/-- C5: for every product list L, category K and search term t, category and
search decorators commute: CategoryFilter(SearchFilter(BaseFilter(), t), K)
and SearchFilter(CategoryFilter(BaseFilter(), K), t) filter L to the same
result, namely exactly the items of L satisfying both the category predicate
and the search predicate. -/
theorem category_search_filters_commute (L : List Product) (K : Option String) (t : String) :
    Svc.Filter.filter
        (Svc.Filter.categoryFilter (Svc.mkSearchFilter Svc.Filter.baseFilter t) K) L
      = Svc.Filter.filter
          (Svc.mkSearchFilter (Svc.Filter.categoryFilter Svc.Filter.baseFilter K) t) L
    ∧ Svc.Filter.filter
        (Svc.Filter.categoryFilter (Svc.mkSearchFilter Svc.Filter.baseFilter t) K) L
      = L.filter (fun p => Svc.categoryPred K p && Svc.searchPred (strToLower t) p) := by
  have hA : Svc.Filter.filter
      (Svc.Filter.categoryFilter (Svc.mkSearchFilter Svc.Filter.baseFilter t) K) L
      = L.filter (fun p => Svc.categoryPred K p && Svc.searchPred (strToLower t) p) := by
    rw [Svc.mkSearchFilter, Svc.categoryFilter_eq_filter, Svc.searchFilter_eq_filter]
    rw [show Svc.Filter.filter Svc.Filter.baseFilter L = L from rfl, List.filter_filter]
  have hB : Svc.Filter.filter
      (Svc.mkSearchFilter (Svc.Filter.categoryFilter Svc.Filter.baseFilter K) t) L
      = L.filter (fun p => Svc.categoryPred K p && Svc.searchPred (strToLower t) p) := by
    rw [Svc.mkSearchFilter, Svc.searchFilter_eq_filter, Svc.categoryFilter_eq_filter]
    rw [show Svc.Filter.filter Svc.Filter.baseFilter L = L from rfl, List.filter_filter]
    exact List.filter_congr (fun x _ => by rw [Bool.and_comm])
  exact ⟨hA.trans hB.symm, hA⟩

/-- C6 counterexample: in the services variant an omitted minPrice is NOT
unbounded below: the constructor defaults it to 0 (and maxPrice to
Number.MAX_VALUE), so a product with the negative price -1 is excluded by a
PriceRangeFilter built with both bounds omitted. -/
theorem svc_default_min_excludes_negative_price :
    Svc.Filter.filter (Svc.mkPriceRangeDefault Svc.Filter.baseFilter) [negProduct] = [] := by
  decide

/-- C6 (amended): in the database variant an omitted bound is genuinely
unbounded on its side: PriceRangeFilter keeps exactly the inner-filtered
products satisfying every present bound, so with min omitted no product is
excluded for a too-low (even negative) price and with max omitted none for a
too-high price.  In the services variant, omitted constructor bounds default
to 0 and Number.MAX_VALUE, so a negative-priced product IS excluded when min
is omitted. -/
theorem priceRange_bounds_semantics :
    (∀ (mn mx : Option ℚ) (l : List Product) (p : Product),
        p ∈ DB.Filter.filter (DB.Filter.priceRangeFilter DB.Filter.baseFilter mn mx) l
          ↔ p ∈ l ∧ (∀ m, mn = some m → m ≤ p.price) ∧ ∀ m, mx = some m → p.price ≤ m)
    ∧ ∀ (l : List Product) (p : Product), p.price < 0 →
        p ∉ Svc.Filter.filter (Svc.mkPriceRangeDefault Svc.Filter.baseFilter) l := by
  constructor
  · intro mn mx l p
    cases mn <;> cases mx <;>
      simp [DB.Filter.filter, List.mem_filter, not_lt, and_assoc]
  · intro l p hp
    simp only [Svc.mkPriceRangeDefault, Svc.Filter.filter, List.mem_filter]
    rintro ⟨-, hcond⟩
    rw [decide_eq_true_eq] at hcond
    exact absurd hcond.1 (not_le.mpr hp)

/-- Witness for C6 (amended) at the concrete product with price -1, a
min-omitted database filter, and the defaulted services filter. -/
theorem priceRange_bounds_semantics_witness :
    (negProduct ∈ DB.Filter.filter
        (DB.Filter.priceRangeFilter DB.Filter.baseFilter none (some 10)) [negProduct]
      ↔ negProduct ∈ [negProduct]
        ∧ (∀ m, (none : Option ℚ) = some m → m ≤ negProduct.price)
        ∧ ∀ m, (some (10:ℚ)) = some m → negProduct.price ≤ m)
    ∧ negProduct.price < 0
    ∧ negProduct ∉ Svc.Filter.filter (Svc.mkPriceRangeDefault Svc.Filter.baseFilter)
        [negProduct] := by
  refine ⟨priceRange_bounds_semantics.1 none (some 10) [negProduct] negProduct,
          by norm_num [negProduct],
          priceRange_bounds_semantics.2 [negProduct] negProduct (by norm_num [negProduct])⟩

/-- C8: the browser-side computation is additive: with an active category
discount of p1 percent matching the product and an active coupon of p2
percent, calculateFinalPrice returns price * (1 - min(p1 + p2, 100)/100);
and at price 100 with p1 = p2 = 10 this differs from the backend chain
CouponPercentOff(CategoryPercentOff(BasicPrice(), K, 10/100), 10/100).total
(80 versus 81): the two subsystems' discount semantics are not equivalent. -/
theorem browser_discount_additive_diverges :
    (∀ (name desc K : String) (price : ℚ) (sq : Int) (p1 p2 : ℚ),
        App.calculateFinalPrice
          [⟨App.DiscountType.categoria, K, p1⟩, ⟨App.DiscountType.cupom, "", p2⟩]
          ⟨name, K, price, desc, sq⟩
          = price * (1 - min (p1 + p2) 100 / 100))
    ∧ App.calculateFinalPrice
        [⟨App.DiscountType.categoria, "eletronicos", 10⟩, ⟨App.DiscountType.cupom, "", 10⟩]
        tvProduct
      ≠ (Svc.PriceCalc.couponPercentOff
          (Svc.PriceCalc.categoryPercentOff Svc.PriceCalc.basicPrice "eletronicos" (10/100))
          (10/100)).total tvProduct := by
  have hbe : (App.DiscountType.categoria == App.DiscountType.cupom) = false := rfl
  have hbe2 : (App.DiscountType.cupom == App.DiscountType.cupom) = true := rfl
  have hbe3 : (App.DiscountType.categoria == App.DiscountType.categoria) = true := rfl
  constructor
  · intro name desc K price sq p1 p2
    simp [App.calculateFinalPrice, List.find?, hbe, hbe2, hbe3]
  · have hL : App.calculateFinalPrice
        [⟨App.DiscountType.categoria, "eletronicos", 10⟩, ⟨App.DiscountType.cupom, "", 10⟩]
        tvProduct = 80 := by
      simp [App.calculateFinalPrice, List.find?, hbe, hbe2, hbe3, tvProduct]
      norm_num [min_def]
    have hR : (Svc.PriceCalc.couponPercentOff
        (Svc.PriceCalc.categoryPercentOff Svc.PriceCalc.basicPrice "eletronicos" (10/100))
        (10/100)).total tvProduct = 81 := by
      norm_num [Svc.PriceCalc.total, tvProduct]
    rw [hL, hR]
    norm_num

/-- C4 counterexample: the services createCompleteFilter does NOT install a
price-range stage when only minPrice is supplied: with category absent,
search empty and minPrice = 5 but maxPrice absent, the factory returns a
chain with no stages at all (a bare BaseFilter). -/
theorem svc_price_stage_needs_both_bounds_cex :
    (Svc.createCompleteFilter none "" (some 5) none false none).stages = []
    ∧ Stage.price ∉ (Svc.createCompleteFilter none "" (some 5) none false none).stages := by
  constructor
  · rfl
  · intro h
    rw [show (Svc.createCompleteFilter none "" (some 5) none false none).stages = []
          from rfl] at h
    exact absurd h (List.not_mem_nil _)

/-- C4 (amended): both factories build the chain in the fixed order
category then search then price range then stock/discount, installing each
stage only when its parameter is present/non-empty and skipping absent
stages entirely; but the services factory installs the price-range stage
only when BOTH minPrice and maxPrice are supplied (and finishes with the
discount stage), while the part_004 factory installs it when at least one
bound is supplied (and finishes with the stock stage). -/
theorem factory_stage_characterization :
    (∀ (category : Option String) (searchTerm : String) (minPrice maxPrice : Option ℚ)
        (onlyWithDiscount : Bool) (priceCalculatorFn : Option (Product → ℚ)),
      (Svc.createCompleteFilter category searchTerm minPrice maxPrice onlyWithDiscount
          priceCalculatorFn).stages =
        (if truthyStr category then [Stage.category] else []) ++
        (if (strTrim searchTerm).isEmpty then [] else [Stage.search]) ++
        (match minPrice, maxPrice with
         | some _, some _ => [Stage.price]
         | _, _ => []) ++
        (match onlyWithDiscount, priceCalculatorFn with
         | true, some _ => [Stage.discount]
         | _, _ => []))
    ∧ ∀ (category searchTerm : Option String) (minPrice maxPrice : Option ℚ)
        (inStockOnly : Bool),
      (DB.createCompleteFilter category searchTerm minPrice maxPrice inStockOnly).stages =
        (if truthyStr category then [Stage.category] else []) ++
        (if truthyTrim searchTerm then [Stage.search] else []) ++
        (if minPrice.isSome || maxPrice.isSome then [Stage.price] else []) ++
        (if inStockOnly then [Stage.stock] else []) := by
  constructor
  · intro category searchTerm minPrice maxPrice onlyWithDiscount priceCalculatorFn
    rcases minPrice with - | mn <;> rcases maxPrice with - | mx <;>
      cases onlyWithDiscount <;> rcases priceCalculatorFn with - | fn <;>
        by_cases h1 : truthyStr category = true <;>
          by_cases h2 : (strTrim searchTerm).isEmpty = true <;>
            simp [Svc.createCompleteFilter, Svc.Filter.stages, Svc.mkSearchFilter, h1, h2]
  · intro category searchTerm minPrice maxPrice inStockOnly
    rcases minPrice with - | mn <;> rcases maxPrice with - | mx <;>
      cases inStockOnly <;>
        by_cases h1 : truthyStr category = true <;>
          by_cases h2 : truthyTrim searchTerm = true <;>
            simp [DB.createCompleteFilter, DB.Filter.stages, h1, h2]

/-- Every " + "-joined string contains a plus character. -/
theorem plus_mem_join (a b : String) : ('+' : Char) ∈ (a ++ " + " ++ b).data := by
  simp [String.data_append]

/-- A " + "-joined string is never the BaseFilter sentinel (the sentinel has
no plus character). -/
theorem join_ne_sentinel (a b : String) : a ++ " + " ++ b ≠ baseSentinel := by
  intro h
  have hm := plus_mem_join a b
  rw [h] at hm
  revert hm
  decide

/-- No database-variant decorator's own fragment equals the sentinel. -/
theorem DB.ownFragment_ne_sentinel (c : DB.Filter) (hc : c ≠ DB.Filter.baseFilter) :
    c.ownFragment ≠ baseSentinel := by
  cases c with
  | baseFilter => exact absurd rfl hc
  | categoryFilter inner category =>
      simp [DB.Filter.ownFragment, baseSentinel, String.ext_iff, String.data_append]
  | searchFilter inner searchTerm =>
      simp [DB.Filter.ownFragment, baseSentinel, String.ext_iff, String.data_append]
  | priceRangeFilter inner minPrice maxPrice =>
      simp [DB.Filter.ownFragment, baseSentinel, String.ext_iff, String.data_append]
  | stockFilter inner inStockOnly =>
      cases inStockOnly <;> simp [DB.Filter.ownFragment, baseSentinel]

/-- A non-base database-variant chain never describes itself as the
sentinel. -/
theorem DB.desc_ne_sentinel (c : DB.Filter) (hc : c ≠ DB.Filter.baseFilter) :
    c.getDescription ≠ baseSentinel := by
  cases c with
  | baseFilter => exact absurd rfl hc
  | categoryFilter inner category =>
      simp only [DB.Filter.getDescription]
      by_cases hin : DB.Filter.getDescription inner = baseSentinel
      · rw [if_pos hin]
        exact DB.ownFragment_ne_sentinel _ (by simp)
      · rw [if_neg hin]
        exact join_ne_sentinel _ _
  | searchFilter inner searchTerm =>
      simp only [DB.Filter.getDescription]
      by_cases hin : DB.Filter.getDescription inner = baseSentinel
      · rw [if_pos hin]
        exact DB.ownFragment_ne_sentinel _ (by simp)
      · rw [if_neg hin]
        exact join_ne_sentinel _ _
  | priceRangeFilter inner minPrice maxPrice =>
      simp only [DB.Filter.getDescription]
      by_cases hin : DB.Filter.getDescription inner = baseSentinel
      · rw [if_pos hin]
        exact DB.ownFragment_ne_sentinel _ (by simp)
      · rw [if_neg hin]
        exact join_ne_sentinel _ _
  | stockFilter inner inStockOnly =>
      simp only [DB.Filter.getDescription]
      by_cases hin : DB.Filter.getDescription inner = baseSentinel
      · rw [if_pos hin]
        exact DB.ownFragment_ne_sentinel _ (by simp)
      · rw [if_neg hin]
        exact join_ne_sentinel _ _

/-- A non-base chain contributes at least one fragment. -/
theorem DB.fragments_ne_nil (c : DB.Filter) (hc : c ≠ DB.Filter.baseFilter) :
    c.fragments ≠ [] := by
  cases c with
  | baseFilter => exact absurd rfl hc
  | categoryFilter inner category => simp [DB.Filter.fragments]
  | searchFilter inner searchTerm => simp [DB.Filter.fragments]
  | priceRangeFilter inner minPrice maxPrice => simp [DB.Filter.fragments]
  | stockFilter inner inStockOnly => simp [DB.Filter.fragments]

/-- Appending one more fragment to a nonempty join adds one " + " joint. -/
theorem joinPlus_append (xs : List String) (f : String) (hxs : xs ≠ []) :
    joinPlus (xs ++ [f]) = joinPlus xs ++ " + " ++ f := by
  induction xs with
  | nil => exact absurd rfl hxs
  | cons x xs ih =>
      cases xs with
      | nil => simp [joinPlus]
      | cons y ys =>
          have hstep := ih (by simp)
          simp only [List.cons_append, List.append_eq, joinPlus] at hstep ⊢
          rw [hstep]
          simp [String.ext_iff, String.data_append, List.append_assoc]

/-- C2 (amended): only the part_004 (database) variant's decorators
recognize the BaseFilter sentinel and omit it: there the description of any
non-base chain is exactly the decorators' own fragments joined by " + ",
with the sentinel dropped.  In the services (TS) variant,
FilterDecorator.getDescription joins unconditionally, so the sentinel occurs
(as a prefix) inside every composed description. -/
theorem description_sentinel_amended :
    (∀ c : DB.Filter, c ≠ DB.Filter.baseFilter → c.getDescription = joinPlus c.fragments)
    ∧ ∀ c : Svc.Filter, c ≠ Svc.Filter.baseFilter →
        baseSentinel.data <+: (Svc.Filter.getDescription c).data := by
  constructor
  · intro c
    induction c with
    | baseFilter => intro hc; exact absurd rfl hc
    | categoryFilter inner category ih =>
        intro _
        simp only [DB.Filter.getDescription, DB.Filter.fragments]
        by_cases hin : inner = DB.Filter.baseFilter
        · subst hin
          rw [if_pos (show DB.Filter.getDescription DB.Filter.baseFilter = baseSentinel
                from rfl)]
          simp [DB.Filter.fragments, joinPlus]
        · rw [if_neg (DB.desc_ne_sentinel inner hin), ih hin,
              joinPlus_append _ _ (DB.fragments_ne_nil inner hin)]
    | searchFilter inner searchTerm ih =>
        intro _
        simp only [DB.Filter.getDescription, DB.Filter.fragments]
        by_cases hin : inner = DB.Filter.baseFilter
        · subst hin
          rw [if_pos (show DB.Filter.getDescription DB.Filter.baseFilter = baseSentinel
                from rfl)]
          simp [DB.Filter.fragments, joinPlus]
        · rw [if_neg (DB.desc_ne_sentinel inner hin), ih hin,
              joinPlus_append _ _ (DB.fragments_ne_nil inner hin)]
    | priceRangeFilter inner minPrice maxPrice ih =>
        intro _
        simp only [DB.Filter.getDescription, DB.Filter.fragments]
        by_cases hin : inner = DB.Filter.baseFilter
        · subst hin
          rw [if_pos (show DB.Filter.getDescription DB.Filter.baseFilter = baseSentinel
                from rfl)]
          simp [DB.Filter.fragments, joinPlus]
        · rw [if_neg (DB.desc_ne_sentinel inner hin), ih hin,
              joinPlus_append _ _ (DB.fragments_ne_nil inner hin)]
    | stockFilter inner inStockOnly ih =>
        intro _
        simp only [DB.Filter.getDescription, DB.Filter.fragments]
        by_cases hin : inner = DB.Filter.baseFilter
        · subst hin
          rw [if_pos (show DB.Filter.getDescription DB.Filter.baseFilter = baseSentinel
                from rfl)]
          simp [DB.Filter.fragments, joinPlus]
        · rw [if_neg (DB.desc_ne_sentinel inner hin), ih hin,
              joinPlus_append _ _ (DB.fragments_ne_nil inner hin)]
  · intro c
    induction c with
    | baseFilter => intro hc; exact absurd rfl hc
    | categoryFilter inner category ih =>
        intro _
        simp only [Svc.Filter.getDescription]
        by_cases hin : inner = Svc.Filter.baseFilter
        · subst hin
          exact ⟨(" + " ++
              (Svc.Filter.categoryFilter Svc.Filter.baseFilter category).getOwnDescription).data,
            by simp [Svc.Filter.getDescription, String.data_append, List.append_assoc]⟩
        · exact (ih hin).trans ⟨(" + " ++
              (Svc.Filter.categoryFilter inner category).getOwnDescription).data,
            by simp [String.data_append, List.append_assoc]⟩
    | searchFilter inner searchTerm ih =>
        intro _
        simp only [Svc.Filter.getDescription]
        by_cases hin : inner = Svc.Filter.baseFilter
        · subst hin
          exact ⟨(" + " ++
              (Svc.Filter.searchFilter Svc.Filter.baseFilter searchTerm).getOwnDescription).data,
            by simp [Svc.Filter.getDescription, String.data_append, List.append_assoc]⟩
        · exact (ih hin).trans ⟨(" + " ++
              (Svc.Filter.searchFilter inner searchTerm).getOwnDescription).data,
            by simp [String.data_append, List.append_assoc]⟩
    | priceRangeFilter inner minPrice maxPrice ih =>
        intro _
        simp only [Svc.Filter.getDescription]
        by_cases hin : inner = Svc.Filter.baseFilter
        · subst hin
          exact ⟨(" + " ++
              (Svc.Filter.priceRangeFilter Svc.Filter.baseFilter minPrice
                maxPrice).getOwnDescription).data,
            by simp [Svc.Filter.getDescription, String.data_append, List.append_assoc]⟩
        · exact (ih hin).trans ⟨(" + " ++
              (Svc.Filter.priceRangeFilter inner minPrice maxPrice).getOwnDescription).data,
            by simp [String.data_append, List.append_assoc]⟩
    | discountFilter inner onlyWithDiscount priceCalculatorFn ih =>
        intro _
        simp only [Svc.Filter.getDescription]
        by_cases hin : inner = Svc.Filter.baseFilter
        · subst hin
          exact ⟨(" + " ++
              (Svc.Filter.discountFilter Svc.Filter.baseFilter onlyWithDiscount
                priceCalculatorFn).getOwnDescription).data,
            by simp [Svc.Filter.getDescription, String.data_append, List.append_assoc]⟩
        · exact (ih hin).trans ⟨(" + " ++
              (Svc.Filter.discountFilter inner onlyWithDiscount
                priceCalculatorFn).getOwnDescription).data,
            by simp [String.data_append, List.append_assoc]⟩

/-- Witness for C2 (amended) on concrete one-decorator chains in both
variants. -/
theorem description_sentinel_amended_witness :
    (DB.Filter.categoryFilter DB.Filter.baseFilter "eletronicos").getDescription
        = joinPlus (DB.Filter.categoryFilter DB.Filter.baseFilter "eletronicos").fragments
    ∧ baseSentinel.data <+:
        (Svc.Filter.getDescription
          (Svc.Filter.categoryFilter Svc.Filter.baseFilter (some "eletronicos"))).data := by
  exact ⟨description_sentinel_amended.1 _ (by simp),
         description_sentinel_amended.2 _ (by simp)⟩

/-- C2 counterexample: in the services variant the sentinel DOES appear
literally inside a composed description: a CategoryFilter over BaseFilter
describes itself as the sentinel joined with its own fragment. -/
theorem svc_description_contains_sentinel :
    Svc.Filter.getDescription
        (Svc.Filter.categoryFilter Svc.Filter.baseFilter (some "eletronicos"))
      = "Filtro base (sem filtragem) + Categoria: eletronicos"
    ∧ baseSentinel.data <+:
        (Svc.Filter.getDescription
          (Svc.Filter.categoryFilter Svc.Filter.baseFilter (some "eletronicos"))).data := by
  constructor
  · rfl
  · decide

/-- Reading below the length of the left part of an appended heap reads the
left part. -/
theorem readArr_append_left {h t : Heap} {i : Nat} (hi : i < h.length) :
    (h ++ t).readArr i = h.readArr i := by
  simp [Heap.readArr, List.getD, List.getElem?_append_left hi]

/-- Allocating on a heap extends it and the fresh reference reads back the
allocated contents. -/
theorem heap_alloc_fresh (h : Heap) (v : List Product) : HeapExtends h (h.alloc v) v := by
  refine ⟨⟨[v], rfl⟩, ?_, ?_, ?_⟩
  · simp [Heap.alloc]
  · simp [Heap.alloc, Heap.readArr, List.getD]
  · intro i hi
    exact readArr_append_left hi

/-- Allocating on an extension stays an extension, now reading the new
contents. -/
theorem HeapExtends.alloc {h : Heap} {s : Heap × Nat} {v : List Product}
    (he : HeapExtends h s v) (w : List Product) : HeapExtends h (s.1.alloc w) w := by
  refine ⟨he.pre.trans ⟨[w], rfl⟩, ?_, ?_, ?_⟩
  · simp [Heap.alloc]
  · simp [Heap.alloc, Heap.readArr, List.getD]
  · intro i hi
    have hi' : i < s.1.length := lt_of_lt_of_le hi he.pre.length_le
    rw [show (s.1.alloc w).1 = s.1 ++ [w] from rfl, readArr_append_left hi']
    exact he.readOld i hi

/-- C10: running any services filter chain against the heap never mutates
existing arrays: the original heap is a prefix of the resulting heap, so the
input array still contains the same elements in the same order, every old
reference reads unchanged, and the (freshly allocated or passed-through)
result reference reads exactly the pure filter result. -/
theorem filter_heap_no_mutation (c : Svc.Filter) (h : Heap) (r : Nat) :
    HeapExtends h (Svc.Filter.filterH c h r) (Svc.Filter.filter c (h.readArr r)) := by
  induction c with
  | baseFilter => exact heap_alloc_fresh h (h.readArr r)
  | categoryFilter inner category ih =>
      cases category with
      | none => simpa only [Svc.Filter.filterH, Svc.Filter.filter] using ih
      | some c =>
          by_cases hc : c = ""
          · subst hc
            simpa [Svc.Filter.filterH, Svc.Filter.filter] using ih
          · simp only [Svc.Filter.filterH, Svc.Filter.filter, hc, if_false]
            rw [← ih.readNew]
            exact ih.alloc _
  | searchFilter inner searchTerm ih =>
      by_cases hs : strTrim searchTerm = ""
      · simpa [Svc.Filter.filterH, Svc.Filter.filter, hs] using ih
      · simp only [Svc.Filter.filterH, Svc.Filter.filter, hs, if_false]
        rw [← ih.readNew]
        exact ih.alloc _
  | priceRangeFilter inner minPrice maxPrice ih =>
      simp only [Svc.Filter.filterH, Svc.Filter.filter]
      rw [← ih.readNew]
      exact ih.alloc _
  | discountFilter inner onlyWithDiscount priceCalculatorFn ih =>
      cases onlyWithDiscount with
      | false => simpa only [Svc.Filter.filterH, Svc.Filter.filter] using ih
      | true =>
          cases priceCalculatorFn with
          | none => simpa only [Svc.Filter.filterH, Svc.Filter.filter] using ih
          | some fn =>
              simp only [Svc.Filter.filterH, Svc.Filter.filter]
              rw [← ih.readNew]
              exact ih.alloc _

end DecoratorApp
